import Mathlib

/-!
Verification of the WhatsApp call-bridging controller
(`src/pipecat/utils/whatsapp/client.py` and `api.py`).

The development shallowly embeds the controller:

* the SDP filter `_filter_sdp_for_whatsapp` is embedded at the character
  level, including a faithful model of Python's `str.splitlines`;
* the registry `_ongoing_calls_map` (a Python `dict` from call id to
  `SmallWebRTCConnection`) is embedded as an insertion-ordered association
  list with `dict`-style lookup/assignment/pop;
* the async handlers are embedded as pure state-transition functions that
  additionally return the trace of externally visible effects (connection
  creation, WhatsApp API calls, disconnects, registry registration);
  outcomes of the external collaborators (connection initialization,
  `get_answer`, the two gateway responses) are supplied by an oracle
  structure, and a raised Python exception is an `Except.error` result.
-/

namespace Whatsapp

/-! ## Python `str.splitlines` -/

/-- The characters Python's `str.splitlines` treats as line boundaries:
LF, CR (with CRLF counting as a single break), VT, FF, FS, GS, RS, NEL,
LINE SEPARATOR, PARAGRAPH SEPARATOR. -/
def isLineBoundary (c : Char) : Bool :=
  c = '\n' || c = '\r' || c = '\x0b' || c = '\x0c' ||
  c = '\x1c' || c = '\x1d' || c = '\x1e' || c = '\x85' ||
  c = '\u2028' || c = '\u2029'

/-- Worker for `str.splitlines`: `acc` holds the current line, reversed.
A CRLF pair is one line break; a terminal break does not open a new line. -/
def splitlinesAux : List Char → List Char → List (List Char)
  | [], acc => if acc = [] then [] else [acc.reverse]
  | '\r' :: '\n' :: rest, acc => acc.reverse :: splitlinesAux rest []
  | c :: rest, acc =>
    if isLineBoundary c then
      acc.reverse :: splitlinesAux rest []
    else
      splitlinesAux rest (c :: acc)

/-- Python's `sdp.splitlines()` on the character list of the string. -/
def pySplitlines (cs : List Char) : List (List Char) :=
  splitlinesAux cs []

/-! ## The SDP filter (`_filter_sdp_for_whatsapp`) -/

/-- The characters of `"a=fingerprint:"`. -/
def fpMarker : List Char := "a=fingerprint:".data

/-- The characters of `"a=fingerprint:sha-256"`. -/
def fpSha256Marker : List Char := "a=fingerprint:sha-256".data

/-- The loop body's test in `_filter_sdp_for_whatsapp`: a line is kept
unless `line.startswith("a=fingerprint:")` and not
`line.startswith("a=fingerprint:sha-256")`. -/
def keepLine (l : List Char) : Bool :=
  !(fpMarker.isPrefixOf l && !(fpSha256Marker.isPrefixOf l))

/-- `"\r\n".join(...)`: join a list of lines with CRLF separators. -/
def joinCRLF : List (List Char) → List Char
  | [] => []
  | [l] => l
  | l :: ls => l ++ '\r' :: '\n' :: joinCRLF ls

/-- Character-level body of `_filter_sdp_for_whatsapp`:
`"\r\n".join([l for l in sdp.splitlines() if keep(l)]) + "\r\n"`. -/
def filterSdpChars (cs : List Char) : List Char :=
  joinCRLF ((pySplitlines cs).filter keepLine) ++ ['\r', '\n']

/-- `WhatsAppClient._filter_sdp_for_whatsapp` as a `String → String`
function (the method reads no instance state). -/
def filter_sdp_for_whatsapp (sdp : String) : String :=
  String.mk (filterSdpChars sdp.data)

example : filter_sdp_for_whatsapp "" = "\r\n" := rfl
example : filter_sdp_for_whatsapp "a\nb" = "a\r\nb\r\n" := rfl
example :
    filter_sdp_for_whatsapp "v=0\r\na=fingerprint:sha-384 AA\r\na=fingerprint:sha-256 BB\r\n" =
      "v=0\r\na=fingerprint:sha-256 BB\r\n" := rfl
example : keepLine "a=fingerprint:sha-512 CC".data = false := rfl
example : keepLine "m=audio".data = true := rfl

/-! ## Data model (pydantic models in `api.py`) -/

/-- A call identifier (`call.id`). -/
abbrev CallId := String

/-- An abstract handle for one `SmallWebRTCConnection` object; distinct
handles denote distinct connection objects. -/
abbrev Conn := Nat

/-- `WhatsAppSession` (pydantic model): the SDP offer carried by a
connect event. -/
structure WhatsAppSession where
  sdp : String
  sdp_type : String
deriving DecidableEq

/-- `WhatsAppConnectCall` (pydantic model). -/
structure WhatsAppConnectCall where
  id : String
  from_ : String
  to_ : String
  event : String
  timestamp : String
  direction : Option String
  session : WhatsAppSession
deriving DecidableEq

/-- `WhatsAppTerminateCall` (pydantic model). -/
structure WhatsAppTerminateCall where
  id : String
  from_ : String
  to_ : String
  event : String
  timestamp : String
  direction : Option String
  biz_opaque_callback_data : Option String
  status : Option String
  start_time : Option String
  end_time : Option String
  duration : Option Int
deriving DecidableEq

/-- `WhatsAppMetadata` (pydantic model). -/
structure WhatsAppMetadata where
  display_phone_number : String
  phone_number_id : String
deriving DecidableEq

/-- `WhatsAppProfile` (pydantic model). -/
structure WhatsAppProfile where
  name : String
deriving DecidableEq

/-- `WhatsAppContact` (pydantic model). -/
structure WhatsAppContact where
  profile : WhatsAppProfile
  wa_id : String
deriving DecidableEq

/-- `WhatsAppError` (pydantic model); `error_data : Dict[str, Any]` is
modelled as a key/value association list. -/
structure WhatsAppError where
  code : Int
  message : String
  href : String
  error_data : List (String × String)
deriving DecidableEq

/-- `WhatsAppConnectCallValue` (pydantic model). -/
structure WhatsAppConnectCallValue where
  messaging_product : String
  metadata : WhatsAppMetadata
  contacts : List WhatsAppContact
  calls : List WhatsAppConnectCall
deriving DecidableEq

/-- `WhatsAppTerminateCallValue` (pydantic model). -/
structure WhatsAppTerminateCallValue where
  messaging_product : String
  metadata : WhatsAppMetadata
  calls : List WhatsAppTerminateCall
  errors : Option (List WhatsAppError)
deriving DecidableEq

/-- The `Union[WhatsAppConnectCallValue, WhatsAppTerminateCallValue]`
payload of a change, as a tagged union (`isinstance` dispatch in the
client discriminates exactly these two alternatives). -/
inductive ChangeValue where
  | connectValue (v : WhatsAppConnectCallValue)
  | terminateValue (v : WhatsAppTerminateCallValue)
deriving DecidableEq

/-- `WhatsAppChange` (pydantic model); the `from`/`to`/`field` names are
suffixed with an underscore where Lean reserves them. -/
structure WhatsAppChange where
  value : ChangeValue
  field_ : String
deriving DecidableEq

/-- `WhatsAppEntry` (pydantic model). -/
structure WhatsAppEntry where
  id : String
  changes : List WhatsAppChange
deriving DecidableEq

/-- `WhatsAppWebhookRequest` (pydantic model). -/
structure WhatsAppWebhookRequest where
  object : String
  entry : List WhatsAppEntry
deriving DecidableEq

/-! ## The call registry (`self._ongoing_calls_map : Dict[str, SmallWebRTCConnection]`)

A Python `dict` is embedded as an insertion-ordered association list in
which each key occurs at most once (`uniqKeys`); the three `dict`
operations the client uses are embedded below with `dict` semantics. -/

/-- The registry state: insertion-ordered key/value pairs. -/
abbrev Registry := List (CallId × Conn)

/-- `call.id in map` / `map[call.id]`: first binding of the key, if any. -/
def lookupReg : Registry → CallId → Option Conn
  | [], _ => none
  | (k, v) :: rest, i => if k = i then some v else lookupReg rest i

/-- `map[call.id] = conn`: replace the value in place if the key is
present (Python dicts keep the original position), else append. -/
def insertReg : Registry → CallId → Conn → Registry
  | [], k, v => [(k, v)]
  | (k', v') :: rest, k, v =>
    if k' = k then (k, v) :: rest else (k', v') :: insertReg rest k v

/-- `map.pop(call.id, None)`: drop the binding of the key, if any. -/
def removeReg : Registry → CallId → Registry
  | [], _ => []
  | (k', v') :: rest, k =>
    if k' = k then rest else (k', v') :: removeReg rest k

/-- Number of bindings of a key (for a real `dict` state this is 0 or 1). -/
def countKey (reg : Registry) (k : CallId) : Nat :=
  (reg.filter (fun e => e.1 = k)).length

/-- The `dict` well-formedness invariant: each key bound at most once. -/
def uniqKeys (reg : Registry) : Prop :=
  (reg.map Prod.fst).Nodup

/-! ## Effects and collaborator oracles -/

/-- Externally visible effects of the handlers, in program order:
construction of a `SmallWebRTCConnection`, the two WhatsApp API methods,
`disconnect()` on a connection, and the registry assignment. -/
inductive Effect where
  | createConn (c : Conn)
  | answerCall (callId : CallId) (action : String) (sdp : String)
  | terminateCall (callId : CallId)
  | disconnect (c : Conn)
  | register (callId : CallId) (c : Conn)
deriving DecidableEq

/-- Does an effect denote a provider termination call
(`terminate_call_to_whatsapp`)? -/
def isTerminateEff : Effect → Bool
  | .terminateCall _ => true
  | _ => false

/-- Does an effect denote a connection `disconnect()`? -/
def isDisconnectEff : Effect → Bool
  | .disconnect _ => true
  | _ => false

/-- Outcomes of the external collaborators during one connect attempt:
whether `pipecat_connection.initialize` returns normally, what
`get_answer().get("sdp")` yields (`none` models a missing/`None` answer,
on which `_filter_sdp_for_whatsapp` raises), and the truthiness of
`resp.get("success", False)` for the two gateway responses. -/
structure ConnectEnv where
  initOk : Bool
  answerSdp : Option String
  preAcceptSuccess : Bool
  acceptSuccess : Bool
deriving DecidableEq

/-- Exceptions the connect path can raise, named as in the spec's error
taxonomy (the Python code raises plain `Exception`s / propagates the
collaborator's exception at the corresponding program points). -/
inductive ConnectError where
  | mediaInitError
  | answerRetrievalError
  | preAcceptRejected
  | acceptRejected
deriving DecidableEq

/-- The `{"status": "success", "message": ...}` acknowledgment returned
by terminate handling. -/
structure Ack where
  status : String
  message : String
deriving DecidableEq

/-! ## The handlers (`client.py`) -/

/-- Exceptions raised by `terminate_all_calls`: the attribute error hit
when the loop looks up the missing `WhatsAppApi.terminate_call_to_whatsapp`. -/
inductive TerminateAllError where
  | attributeError
deriving DecidableEq

/-- `WhatsAppClient.terminate_all_calls`: if the map is empty, return at
once (no tasks, no effects). Otherwise the loop's first iteration
evaluates `self._whatsapp_api.terminate_call_to_whatsapp(call_id)` —
but the `WhatsAppApi` class in `api.py` defines only `__init__` and
`answer_call_to_whatsapp`, no `terminate_call_to_whatsapp` and no
`__getattr__`, so this attribute access raises `AttributeError`
synchronously while the task list is being built: no termination task
and no `disconnect()` coroutine is created or awaited, `asyncio.gather`
is never reached (its `return_exceptions=True` cannot swallow an
exception raised outside the awaited tasks), `clear()` never runs, and
the exception propagates to the caller. (`self._whatsapp_api` is always
set by `__init__`, so its truthiness guard always passes and the
attribute access is always reached.) -/
def terminate_all_calls (reg : Registry) :
    List Effect × Registry × Except TerminateAllError Unit :=
  if reg.isEmpty then ([], reg, .ok ())
  else ([], reg, .error .attributeError)

/-- `WhatsAppClient._handle_connect_event`: construct a connection,
initialize it from the offer, filter the SDP answer, call the gateway
with `pre_accept` then `accept` (disconnecting and raising on a
non-success response), and only then store the connection in the map.
`conn` is the handle of the freshly constructed connection; the result
is the effect trace, the final registry, and the returned connection or
the raised error. -/
def handle_connect_event (env : ConnectEnv) (conn : Conn) (reg : Registry)
    (call : WhatsAppConnectCall) : List Effect × Registry × Except ConnectError Conn :=
  if !env.initOk then
    ([Effect.createConn conn], reg, .error .mediaInitError)
  else
    match env.answerSdp with
    | none => ([Effect.createConn conn], reg, .error .answerRetrievalError)
    | some sdp0 =>
      let sdp_answer := filter_sdp_for_whatsapp sdp0
      if !env.preAcceptSuccess then
        ([Effect.createConn conn, Effect.answerCall call.id "pre_accept" sdp_answer,
          Effect.disconnect conn], reg, .error .preAcceptRejected)
      else if !env.acceptSuccess then
        ([Effect.createConn conn, Effect.answerCall call.id "pre_accept" sdp_answer,
          Effect.answerCall call.id "accept" sdp_answer, Effect.disconnect conn],
         reg, .error .acceptRejected)
      else
        ([Effect.createConn conn, Effect.answerCall call.id "pre_accept" sdp_answer,
          Effect.answerCall call.id "accept" sdp_answer, Effect.register call.id conn],
         insertReg reg call.id conn, .ok conn)

/-- `WhatsAppClient._handle_terminate_event`: if the call id is in the
map, disconnect that connection and pop the entry; in every case return
the success acknowledgment. -/
def handle_terminate_event (reg : Registry) (call : WhatsAppTerminateCall) :
    List Effect × Registry × Ack :=
  match lookupReg reg call.id with
  | some conn =>
    ([Effect.disconnect conn], removeReg reg call.id,
     ⟨"success", "Call termination handled"⟩)
  | none => ([], reg, ⟨"success", "Call termination handled"⟩)

/-- Result of `WhatsAppClient.handle_webhook_request`: the connection
returned by connect handling, or the acknowledgment dict returned by
terminate handling. -/
inductive DispatchResult where
  | connection (c : Conn)
  | ack (a : Ack)
deriving DecidableEq

/-- Errors out of `handle_webhook_request`: a connect-path exception, or
the `NotImplementedError("No supported event found")` fallthrough. -/
inductive DispatchError where
  | connectFailed (e : ConnectError)
  | unsupportedEvent
deriving DecidableEq

/-- The inner `for call in change.value.calls` loops: first call of a
connect change whose event is `"connect"`, or of a terminate change
whose event is `"terminate"`. -/
def matchChange : WhatsAppChange → Option (WhatsAppConnectCall ⊕ WhatsAppTerminateCall)
  | ch =>
    match ch.value with
    | .connectValue v => (v.calls.find? (fun c => c.event == "connect")).map Sum.inl
    | .terminateValue v => (v.calls.find? (fun c => c.event == "terminate")).map Sum.inr

/-- The `for change in entry.changes` loop with its early `return`s. -/
def scanChanges : List WhatsAppChange → Option (WhatsAppConnectCall ⊕ WhatsAppTerminateCall)
  | [] => none
  | ch :: rest =>
    match matchChange ch with
    | some r => some r
    | none => scanChanges rest

/-- The `for entry in request.entry` loop with its early `return`s. -/
def scanEntries : List WhatsAppEntry → Option (WhatsAppConnectCall ⊕ WhatsAppTerminateCall)
  | [] => none
  | e :: rest =>
    match scanChanges e.changes with
    | some r => some r
    | none => scanEntries rest

/-- `WhatsAppClient.handle_webhook_request`: dispatch the first matching
call of the request to connect or terminate handling and return its
result; raise `NotImplementedError` if nothing matches. -/
def handle_webhook_request (env : ConnectEnv) (conn : Conn) (reg : Registry)
    (req : WhatsAppWebhookRequest) : List Effect × Registry × Except DispatchError DispatchResult :=
  match scanEntries req.entry with
  | some (.inl c) =>
    let r := handle_connect_event env conn reg c
    (r.1, r.2.1,
      match r.2.2 with
      | .ok co => .ok (.connection co)
      | .error e => .error (.connectFailed e))
  | some (.inr t) =>
    let r := handle_terminate_event reg t
    (r.1, r.2.1, .ok (.ack r.2.2))
  | none => ([], reg, .error .unsupportedEvent)

/-! ## Spec-side definitions

Used to compare the code's behaviour with the spec's words. -/

/-- Modelled from the spec: the hash algorithm named by a fingerprint
attribute line, i.e. the token between `a=fingerprint:` and the first
space. -/
def fpHashAlg (l : List Char) : List Char :=
  (l.drop fpMarker.length).takeWhile (fun c => c ≠ ' ')

/-- Modelled from the spec: keep a line unless it is a fingerprint
attribute line whose hash algorithm is not `sha-256`. -/
def specKeepLine (l : List Char) : Bool :=
  !(fpMarker.isPrefixOf l && !(fpHashAlg l == "sha-256".data))

/-- Spec-side scan of a webhook request (§4.5): flatten the entries'
changes in order and take the first change that contains a call whose
event tag matches the change's variant. -/
def specFirstEvent (req : WhatsAppWebhookRequest) :
    Option (WhatsAppConnectCall ⊕ WhatsAppTerminateCall) :=
  (req.entry.flatMap (fun e => e.changes)).findSome? matchChange

/-! ## Lemmas about the splitlines model -/

set_option maxHeartbeats 1000000 in
/-- Splitting right after a CRLF pair. -/
theorem splitlinesAux_crlf (rest acc : List Char) :
    splitlinesAux ('\r' :: '\n' :: rest) acc = acc.reverse :: splitlinesAux rest [] := by
  rw [splitlinesAux.eq_2]

/-- A non-boundary character is accumulated into the current line. -/
theorem splitlinesAux_step (c : Char) (rest acc : List Char)
    (hc : isLineBoundary c = false) :
    splitlinesAux (c :: rest) acc = splitlinesAux rest (c :: acc) := by
  have hne : ∀ rest_1 : List Char, c = '\r' → rest = '\n' :: rest_1 → False := by
    intro _ h _
    subst h
    simp [isLineBoundary] at hc
  rw [splitlinesAux.eq_3 acc c rest hne, if_neg (by simp [hc])]

/-- Consuming one boundary-free line up to an explicit CRLF. -/
theorem splitlinesAux_line (l : List Char) (hl : ∀ c ∈ l, isLineBoundary c = false) :
    ∀ rest acc : List Char,
      splitlinesAux (l ++ '\r' :: '\n' :: rest) acc =
        (acc.reverse ++ l) :: splitlinesAux rest [] := by
  induction l with
  | nil =>
    intro rest acc
    simpa using splitlinesAux_crlf rest acc
  | cons c l ih =>
    intro rest acc
    have hc : isLineBoundary c = false := hl c (by simp)
    rw [List.cons_append, splitlinesAux_step c _ _ hc,
      ih (fun d hd => hl d (by simp [hd]))]
    simp

/-- Splitting a nonempty CRLF-joined, CRLF-terminated list of
boundary-free lines recovers exactly those lines. -/
theorem pySplitlines_joinCRLF (ls : List (List Char)) (h : ls ≠ [])
    (hl : ∀ l ∈ ls, ∀ c ∈ l, isLineBoundary c = false) :
    pySplitlines (joinCRLF ls ++ ['\r', '\n']) = ls := by
  induction ls with
  | nil => cases h rfl
  | cons l ls ih =>
    cases ls with
    | nil =>
      have := splitlinesAux_line l (fun c hc => hl l (by simp) c hc) [] []
      simpa [pySplitlines, joinCRLF] using this
    | cons l2 ls2 =>
      have hline : ∀ c ∈ l, isLineBoundary c = false := fun c hc => hl l (by simp) c hc
      have hrest : ∀ m ∈ l2 :: ls2, ∀ c ∈ m, isLineBoundary c = false :=
        fun m hm c hc => hl m (by simp [hm]) c hc
      have hj : joinCRLF (l :: l2 :: ls2) ++ ['\r', '\n'] =
          l ++ '\r' :: '\n' :: (joinCRLF (l2 :: ls2) ++ ['\r', '\n']) := by
        simp [joinCRLF]
      unfold pySplitlines
      rw [hj, splitlinesAux_line l hline]
      have := ih (by simp) hrest
      unfold pySplitlines at this
      rw [this]
      simp

/-- Every line produced by the splitlines model is boundary-free. -/
theorem splitlinesAux_boundary_free (cs acc : List Char)
    (hacc : ∀ c ∈ acc, isLineBoundary c = false) :
    ∀ l ∈ splitlinesAux cs acc, ∀ c ∈ l, isLineBoundary c = false := by
  revert hacc
  induction cs, acc using splitlinesAux.induct with
  | case1 =>
    intro _
    simp [splitlinesAux]
  | case2 acc hne =>
    intro hacc l hlmem c hc
    rw [splitlinesAux.eq_1, if_neg hne] at hlmem
    simp at hlmem
    subst hlmem
    exact hacc c (List.mem_reverse.mp hc)
  | case3 rest acc ih =>
    intro hacc l hlmem c hc
    rw [splitlinesAux_crlf] at hlmem
    rcases List.mem_cons.mp hlmem with h | h
    · subst h
      exact hacc c (List.mem_reverse.mp hc)
    · exact ih (by simp) l h c hc
  | case4 c0 rest acc hne hb ih =>
    intro hacc l hlmem c hc
    rw [splitlinesAux.eq_3 acc c0 rest hne, if_pos hb] at hlmem
    rcases List.mem_cons.mp hlmem with h | h
    · subst h
      exact hacc c (List.mem_reverse.mp hc)
    · exact ih (by simp) l h c hc
  | case5 c0 rest acc hne hb ih =>
    intro hacc l hlmem c hc
    rw [splitlinesAux.eq_3 acc c0 rest hne, if_neg hb] at hlmem
    refine ih ?_ l hlmem c hc
    intro d hd
    rcases List.mem_cons.mp hd with h | h
    · subst h
      simpa using hb
    · exact hacc d h

/-- Every line produced by `pySplitlines` is boundary-free. -/
theorem pySplitlines_boundary_free (cs : List Char) :
    ∀ l ∈ pySplitlines cs, ∀ c ∈ l, isLineBoundary c = false :=
  splitlinesAux_boundary_free cs [] (by simp)

/-- Filtering a list twice with the same predicate is filtering once. -/
theorem filter_keepLine_idem (ls : List (List Char)) :
    (ls.filter keepLine).filter keepLine = ls.filter keepLine := by
  induction ls with
  | nil => rfl
  | cons a ls ih =>
    by_cases h : keepLine a <;> simp [List.filter_cons, h, ih]

/-! ## Lemmas about the registry model -/

/-- A key that is not among the keys has no binding. -/
theorem lookupReg_eq_none_of_not_mem (reg : Registry) (k : CallId)
    (h : k ∉ reg.map Prod.fst) : lookupReg reg k = none := by
  induction reg with
  | nil => rfl
  | cons e rest ih =>
    simp only [List.map_cons, List.mem_cons] at h
    push_neg at h
    obtain ⟨e1, e2⟩ := e
    simpa [lookupReg, Ne.symm h.1] using ih h.2

/-- Absence of a binding is the same as key count zero. -/
theorem lookupReg_eq_none_iff (reg : Registry) (k : CallId) :
    lookupReg reg k = none ↔ countKey reg k = 0 := by
  induction reg with
  | nil => simp [lookupReg, countKey]
  | cons e rest ih =>
    obtain ⟨e1, e2⟩ := e
    by_cases h : e1 = k
    · subst h
      simp [lookupReg, countKey, List.filter_cons]
    · simp only [lookupReg, countKey, List.filter_cons] at ih ⊢
      simp [h, ih]

/-- Key counts add up over list append. -/
theorem countKey_append (xs ys : Registry) (k : CallId) :
    countKey (xs ++ ys) k = countKey xs k + countKey ys k := by
  simp [countKey, List.filter_append]

/-- `dict` assignment of an absent key appends the new binding. -/
theorem insertReg_absent (reg : Registry) (k : CallId) (v : Conn)
    (h : lookupReg reg k = none) : insertReg reg k v = reg ++ [(k, v)] := by
  induction reg with
  | nil => rfl
  | cons e rest ih =>
    obtain ⟨e1, e2⟩ := e
    simp only [lookupReg] at h
    rcases ne_or_eq e1 k with hne | hEq
    · simp only [if_neg hne] at h
      simp [insertReg, hne, ih h]
    · simp [hEq] at h


/-- `dict` assignment binds the assigned key to the new value. -/
theorem insertReg_lookup_self (reg : Registry) (k : CallId) (v : Conn) :
    lookupReg (insertReg reg k v) k = some v := by
  induction reg with
  | nil => simp [insertReg, lookupReg]
  | cons e rest ih =>
    obtain ⟨e1, e2⟩ := e
    by_cases h : e1 = k
    · simp [insertReg, lookupReg, h]
    · simp [insertReg, lookupReg, h, ih]

/-- The keys after a `dict` assignment are the old keys plus the new key. -/
theorem insertReg_mem_keys (reg : Registry) (k : CallId) (v : Conn) (m : CallId) :
    m ∈ (insertReg reg k v).map Prod.fst ↔ m ∈ reg.map Prod.fst ∨ m = k := by
  induction reg with
  | nil => simp [insertReg]
  | cons e rest ih =>
    obtain ⟨e1, e2⟩ := e
    by_cases h : e1 = k
    · subst h
      rw [show insertReg ((e1, e2) :: rest) e1 v = (e1, v) :: rest from by simp [insertReg]]
      simp only [List.map_cons, List.mem_cons]
      tauto
    · rw [show insertReg ((e1, e2) :: rest) k v = (e1, e2) :: insertReg rest k v from by
        simp [insertReg, h]]
      simp only [List.map_cons, List.mem_cons, ih]
      tauto

/-- `dict` assignment keeps keys unique. -/
theorem insertReg_uniq (reg : Registry) (k : CallId) (v : Conn)
    (h : uniqKeys reg) : uniqKeys (insertReg reg k v) := by
  induction reg with
  | nil => simp [insertReg, uniqKeys]
  | cons e rest ih =>
    obtain ⟨e1, e2⟩ := e
    rw [uniqKeys, List.map_cons, List.nodup_cons] at h
    by_cases hk : e1 = k
    · subst hk
      simpa [insertReg, uniqKeys, List.nodup_cons] using h
    · rw [uniqKeys, show insertReg ((e1, e2) :: rest) k v = (e1, e2) :: insertReg rest k v from by
        simp [insertReg, hk], List.map_cons, List.nodup_cons]
      refine ⟨fun hmem => ?_, ih h.2⟩
      rcases (insertReg_mem_keys rest k v e1).mp hmem with h1 | h1
      · exact h.1 h1
      · exact hk h1

/-- `dict` assignment of a present key keeps the entry count. -/
theorem insertReg_length_present (reg : Registry) (k : CallId) (v w : Conn)
    (h : lookupReg reg k = some w) : (insertReg reg k v).length = reg.length := by
  induction reg with
  | nil => simp [lookupReg] at h
  | cons e rest ih =>
    obtain ⟨e1, e2⟩ := e
    by_cases hk : e1 = k
    · simp [insertReg, hk]
    · simp only [lookupReg, if_neg hk] at h
      simp [insertReg, hk, ih h]

/-- Popping a key from a unique-keyed `dict` unbinds it. -/
theorem removeReg_lookup_self (reg : Registry) (k : CallId)
    (h : uniqKeys reg) : lookupReg (removeReg reg k) k = none := by
  induction reg with
  | nil => rfl
  | cons e rest ih =>
    obtain ⟨e1, e2⟩ := e
    rw [uniqKeys, List.map_cons, List.nodup_cons] at h
    by_cases hk : e1 = k
    · subst hk
      rw [show removeReg ((e1, e2) :: rest) e1 = rest from by simp [removeReg]]
      exact lookupReg_eq_none_of_not_mem rest e1 h.1
    · rw [show removeReg ((e1, e2) :: rest) k = (e1, e2) :: removeReg rest k from by
        simp [removeReg, hk]]
      simp [lookupReg, hk, ih h.2]

/-- Popping one key leaves every other key's binding unchanged. -/
theorem removeReg_lookup_other (reg : Registry) (k k' : CallId) (h : k' ≠ k) :
    lookupReg (removeReg reg k) k' = lookupReg reg k' := by
  induction reg with
  | nil => rfl
  | cons e rest ih =>
    obtain ⟨e1, e2⟩ := e
    by_cases hk : e1 = k
    · subst hk
      rw [show removeReg ((e1, e2) :: rest) e1 = rest from by simp [removeReg]]
      simp [lookupReg, Ne.symm (by simpa using h)]
    · rw [show removeReg ((e1, e2) :: rest) k = (e1, e2) :: removeReg rest k from by
        simp [removeReg, hk]]
      by_cases h1 : e1 = k'
      · simp [lookupReg, h1]
      · simp [lookupReg, h1, ih]

/-- Popping a present key removes exactly one entry. -/
theorem removeReg_length (reg : Registry) (k : CallId) (v : Conn)
    (h : lookupReg reg k = some v) : (removeReg reg k).length + 1 = reg.length := by
  induction reg with
  | nil => simp [lookupReg] at h
  | cons e rest ih =>
    obtain ⟨e1, e2⟩ := e
    by_cases hk : e1 = k
    · simp [removeReg, hk]
    · simp only [lookupReg, if_neg hk] at h
      simp [removeReg, hk, ih h]

/-! ## Lemmas about webhook dispatch and bulk termination -/

/-- The per-entry loop is the first hit over the entry's changes. -/
theorem scanChanges_eq_findSome (chs : List WhatsAppChange) :
    scanChanges chs = chs.findSome? matchChange := by
  induction chs with
  | nil => rfl
  | cons ch rest ih =>
    rw [List.findSome?_cons]
    show (match matchChange ch with
      | some r => some r
      | none => scanChanges rest) = _
    cases matchChange ch <;> simp [ih]

/-- The nested entry/change loops are the first hit over the flattened
change list. -/
theorem scanEntries_eq_findSome (entries : List WhatsAppEntry) :
    scanEntries entries = (entries.flatMap (fun e => e.changes)).findSome? matchChange := by
  induction entries with
  | nil => rfl
  | cons e rest ih =>
    rw [List.flatMap_cons, List.findSome?_append, ← ih, ← scanChanges_eq_findSome]
    show (match scanChanges e.changes with
      | some r => some r
      | none => scanEntries rest) = _
    cases scanChanges e.changes <;> simp [Option.or]

/-- A hit in the leading entries short-circuits: appending further
entries cannot change the scan result. -/
theorem scanEntries_append_of_some (xs ys : List WhatsAppEntry)
    (r : WhatsAppConnectCall ⊕ WhatsAppTerminateCall) (h : scanEntries xs = some r) :
    scanEntries (xs ++ ys) = some r := by
  induction xs with
  | nil => simp [scanEntries] at h
  | cons e rest ih =>
    rw [List.cons_append]
    show (match scanChanges e.changes with
      | some r => some r
      | none => scanEntries (rest ++ ys)) = some r
    revert h
    show (match scanChanges e.changes with
      | some r => some r
      | none => scanEntries rest) = some r → _
    cases scanChanges e.changes <;> simp
    exact ih

/-- Helper: a registry with unique keys binds every key at most once. -/
theorem countKey_le_one_of_uniq (reg : Registry) (h : uniqKeys reg) (k : CallId) :
    countKey reg k ≤ 1 := by
  induction reg with
  | nil => simp [countKey]
  | cons e rest ih =>
    obtain ⟨e1, e2⟩ := e
    rw [uniqKeys, List.map_cons, List.nodup_cons] at h
    by_cases hk : e1 = k
    · subst hk
      have h0 : countKey rest e1 = 0 :=
        (lookupReg_eq_none_iff rest e1).mp (lookupReg_eq_none_of_not_mem rest e1 h.1)
      have h1 : countKey ((e1, e2) :: rest) e1 = countKey rest e1 + 1 := by
        simp [countKey, List.filter_cons]
      omega
    · simpa [countKey, List.filter_cons, hk] using ih h.2

/-- Helper: the SDP filter body is idempotent at the character level. -/
theorem filterSdpChars_idem (cs : List Char) :
    filterSdpChars (filterSdpChars cs) = filterSdpChars cs := by
  have hbf : ∀ l ∈ (pySplitlines cs).filter keepLine, ∀ c ∈ l, isLineBoundary c = false :=
    fun l hl => pySplitlines_boundary_free cs l (List.mem_filter.mp hl).1
  rcases eq_or_ne ((pySplitlines cs).filter keepLine) [] with h | h
  · have h1 : filterSdpChars cs = ['\r', '\n'] := by
      unfold filterSdpChars
      rw [h]
      rfl
    rw [h1]
    rfl
  · have hps : pySplitlines (filterSdpChars cs) = (pySplitlines cs).filter keepLine :=
      pySplitlines_joinCRLF ((pySplitlines cs).filter keepLine) h hbf
    calc filterSdpChars (filterSdpChars cs)
        = joinCRLF ((pySplitlines (filterSdpChars cs)).filter keepLine) ++ ['\r', '\n'] := rfl
      _ = joinCRLF ((pySplitlines cs).filter keepLine) ++ ['\r', '\n'] := by
          rw [hps, filter_keepLine_idem]
      _ = filterSdpChars cs := rfl

/-- Helper: the controller's scan of a request equals the spec-side
first-matching-call scan. -/
theorem scanEntries_eq_spec (req : WhatsAppWebhookRequest) :
    scanEntries req.entry = specFirstEvent req :=
  scanEntries_eq_findSome req.entry

/-! ## The claims -/

/-- Claim C1 describes the intended behaviour, but the code cannot
deliver it: `WhatsAppApi` has no `terminate_call_to_whatsapp`, so
`terminate_all_calls` on any non-empty registry raises `AttributeError`
from the first loop iteration — zero provider-termination calls, zero
disconnects, and the registry is left unchanged instead of empty.
Evaluated here: the empty-registry half (completes without error, no
effects) does hold; on every non-empty registry the call fails with the
attribute error, its effect trace is empty (no termination calls, no
disconnects), and the registry still holds its entries; both shown
concretely at the one-entry registry `{"a": 1}`. -/
theorem terminate_all_calls_missing_api :
    terminate_all_calls [] = ([], [], .ok ()) ∧
    (∀ reg : Registry, reg ≠ [] →
      terminate_all_calls reg = ([], reg, .error .attributeError)) ∧
    terminate_all_calls [("a", 1)] = ([], [("a", 1)], .error .attributeError) ∧
    ((terminate_all_calls [("a", 1)]).1.filter isTerminateEff).length = 0 ∧
    ((terminate_all_calls [("a", 1)]).1.filter isDisconnectEff).length = 0 := by
  refine ⟨rfl, fun reg h => ?_, rfl, rfl, rfl⟩
  unfold terminate_all_calls
  rw [if_neg (fun hc => h (List.isEmpty_iff.mp hc))]

/-- Witness for `terminate_all_calls_missing_api`: the non-empty case at
a concrete one-entry registry. -/
theorem terminate_all_calls_missing_api_witness :
    terminate_all_calls [("b", 2)] = ([], [("b", 2)], .error .attributeError) :=
  terminate_all_calls_missing_api.2.1 [("b", 2)] (by decide)

/-- Claim C8: a terminate event for a registered call id disconnects
exactly that entry's connection exactly once, removes exactly that one
binding (every other key's binding is unchanged, the entry count drops
by one, the id itself is unbound), and returns the success
acknowledgment. -/
theorem terminate_registered_spec (reg : Registry) (call : WhatsAppTerminateCall)
    (conn : Conn) (huniq : uniqKeys reg) (hreg : lookupReg reg call.id = some conn) :
    handle_terminate_event reg call =
      ([Effect.disconnect conn], removeReg reg call.id,
        ⟨"success", "Call termination handled"⟩) ∧
    lookupReg (removeReg reg call.id) call.id = none ∧
    (∀ k, k ≠ call.id → lookupReg (removeReg reg call.id) k = lookupReg reg k) ∧
    (removeReg reg call.id).length + 1 = reg.length := by
  refine ⟨?_, removeReg_lookup_self reg call.id huniq,
    fun k hk => removeReg_lookup_other reg call.id k hk,
    removeReg_length reg call.id conn hreg⟩
  unfold handle_terminate_event
  rw [hreg]

/-- Witness for `terminate_registered_spec`: terminating call `"a"` in a
two-call registry disconnects session 1 once and leaves only `"b"`. -/
theorem terminate_registered_spec_witness :
    handle_terminate_event [("a", 1), ("b", 2)]
        ⟨"a", "+1", "+2", "terminate", "0", none, none, some "COMPLETED", none, none, some 42⟩ =
      ([Effect.disconnect 1], [("b", 2)], ⟨"success", "Call termination handled"⟩) :=
  (terminate_registered_spec [("a", 1), ("b", 2)]
    ⟨"a", "+1", "+2", "terminate", "0", none, none, some "COMPLETED", none, none, some 42⟩
    1 (by simp [uniqKeys]) rfl).1

/-- Claim C7: the SDP filter is idempotent on every input string. -/
theorem sdp_filter_idempotent (x : String) :
    filter_sdp_for_whatsapp (filter_sdp_for_whatsapp x) = filter_sdp_for_whatsapp x :=
  congrArg String.mk (filterSdpChars_idem x.data)

/-- Claim C10: on every input string — including the empty string and
LF-terminated input — the filter's output is the CRLF-join of
boundary-free lines followed by a trailing CRLF (hence non-empty, with
CRLF between all lines and line endings normalized to CRLF); the empty
string yields a single CRLF, and a bare-LF input is re-serialized with
CRLF. -/
theorem sdp_filter_output_shape (s : String) :
    filter_sdp_for_whatsapp "" = "\r\n" ∧
    filter_sdp_for_whatsapp "a\nb" = "a\r\nb\r\n" ∧
    filter_sdp_for_whatsapp s ≠ "" ∧
    ∃ ls : List (List Char),
      (∀ l ∈ ls, ∀ c ∈ l, isLineBoundary c = false) ∧
      (filter_sdp_for_whatsapp s).data = joinCRLF ls ++ ['\r', '\n'] := by
  refine ⟨rfl, rfl, ?_, ⟨(pySplitlines s.data).filter keepLine,
    fun l hl => pySplitlines_boundary_free s.data l (List.mem_filter.mp hl).1, rfl⟩⟩
  intro h
  have hd : filterSdpChars s.data = [] := by
    have := congrArg String.data h
    simpa [filter_sdp_for_whatsapp] using this
  unfold filterSdpChars at hd
  simp at hd

/-- Claim C6 is false as stated: the code keeps a fingerprint line by
the prefix test `startswith("a=fingerprint:sha-256")`, not by comparing
the hash algorithm with `sha-256`; the fingerprint line with hash
algorithm `sha-2560` (not `sha-256`) is retained, where the claim
demands it be dropped. -/
theorem sdp_filter_hash_alg_cex :
    fpMarker.isPrefixOf "a=fingerprint:sha-2560 AA:BB".data = true ∧
    fpHashAlg "a=fingerprint:sha-2560 AA:BB".data ≠ "sha-256".data ∧
    specKeepLine "a=fingerprint:sha-2560 AA:BB".data = false ∧
    keepLine "a=fingerprint:sha-2560 AA:BB".data = true ∧
    filter_sdp_for_whatsapp "a=fingerprint:sha-2560 AA:BB\r\n" =
      "a=fingerprint:sha-2560 AA:BB\r\n" :=
  ⟨rfl, by decide, rfl, rfl, rfl⟩

/-- Claim C6 (amended): on a CRLF-terminated sequence of boundary-free
lines, the filter drops exactly the fingerprint attribute lines that do
not start with `a=fingerprint:sha-256` (a prefix test: `sha-384` and
`sha-512` fingerprint lines are dropped, the `sha-256` line and every
non-fingerprint line pass through unchanged in original order; a
fingerprint line whose algorithm name merely extends `sha-256` is also
retained), and re-serializes with CRLF line endings and a trailing
CRLF. -/
theorem sdp_filter_fingerprint_lines (lines : List (List Char))
    (hl : ∀ l ∈ lines, ∀ c ∈ l, isLineBoundary c = false) :
    filter_sdp_for_whatsapp (String.mk (joinCRLF lines ++ ['\r', '\n'])) =
      String.mk (joinCRLF (lines.filter keepLine) ++ ['\r', '\n']) ∧
    keepLine "a=fingerprint:sha-384 AA:BB".data = false ∧
    keepLine "a=fingerprint:sha-512 AA:BB".data = false ∧
    keepLine "a=fingerprint:sha-256 AA:BB".data = true ∧
    ∀ l : List Char, fpMarker.isPrefixOf l = false → keepLine l = true := by
  refine ⟨?_, rfl, rfl, rfl, fun l hp => ?_⟩
  · show String.mk (filterSdpChars (joinCRLF lines ++ ['\r', '\n'])) = _
    rcases eq_or_ne lines [] with h | h
    · subst h
      rfl
    · unfold filterSdpChars
      rw [pySplitlines_joinCRLF lines h hl]
  · unfold keepLine
    rw [hp]
    rfl

/-- Witness for `sdp_filter_fingerprint_lines`: a three-line SDP answer
with `sha-384` and `sha-256` fingerprints keeps only the `sha-256`
fingerprint line. -/
theorem sdp_filter_fingerprint_lines_witness :
    filter_sdp_for_whatsapp (String.mk (joinCRLF
        ["v=0".data, "a=fingerprint:sha-384 AA".data, "a=fingerprint:sha-256 BB".data] ++
      ['\r', '\n'])) =
      String.mk (joinCRLF
        (["v=0".data, "a=fingerprint:sha-384 AA".data,
          "a=fingerprint:sha-256 BB".data].filter keepLine) ++ ['\r', '\n']) :=
  (sdp_filter_fingerprint_lines
    ["v=0".data, "a=fingerprint:sha-384 AA".data, "a=fingerprint:sha-256 BB".data]
    (by decide)).1

/-- Claim C2 is false as stated: `_handle_connect_event` never checks
whether the call id is already registered — a successful connect for an
id bound to live session 1 silently overwrites the binding with the new
session 2, never invokes `disconnect` on session 1, and raises no
`DuplicateSession` (no such failure exists in the code). -/
theorem connect_duplicate_overwrite_cex :
    (handle_connect_event ⟨true, some "v=0", true, true⟩ 2 [("a", 1)]
        ⟨"a", "+1", "+2", "connect", "0", none, ⟨"v=0", "offer"⟩⟩).2.2 = .ok 2 ∧
    (handle_connect_event ⟨true, some "v=0", true, true⟩ 2 [("a", 1)]
        ⟨"a", "+1", "+2", "connect", "0", none, ⟨"v=0", "offer"⟩⟩).2.1 = [("a", 2)] ∧
    Effect.disconnect 1 ∉ (handle_connect_event ⟨true, some "v=0", true, true⟩ 2 [("a", 1)]
        ⟨"a", "+1", "+2", "connect", "0", none, ⟨"v=0", "offer"⟩⟩).1 :=
  ⟨rfl, rfl, by decide⟩

/-- Claim C2 (amended): the registry, being a `dict`, maps each call id
to at most one session at any time (unique keys are preserved), but a
successful connect event for an already-registered id silently
overwrites the existing binding with the new session without
disconnecting the prior one and without any error — there is no
`DuplicateSession` failure in the code. -/
theorem connect_duplicate_overwrite (conn old : Conn) (reg : Registry)
    (call : WhatsAppConnectCall) (sdp0 : String)
    (hold : lookupReg reg call.id = some old) :
    (handle_connect_event ⟨true, some sdp0, true, true⟩ conn reg call).2.2 = .ok conn ∧
    lookupReg (handle_connect_event ⟨true, some sdp0, true, true⟩ conn reg call).2.1
      call.id = some conn ∧
    (∀ t, Effect.disconnect t ∉
      (handle_connect_event ⟨true, some sdp0, true, true⟩ conn reg call).1) ∧
    (handle_connect_event ⟨true, some sdp0, true, true⟩ conn reg call).2.1.length =
      reg.length ∧
    (uniqKeys reg →
      uniqKeys (handle_connect_event ⟨true, some sdp0, true, true⟩ conn reg call).2.1 ∧
      ∀ k, countKey (handle_connect_event ⟨true, some sdp0, true, true⟩ conn reg call).2.1
        k ≤ 1) := by
  have hE : handle_connect_event ⟨true, some sdp0, true, true⟩ conn reg call =
      ([Effect.createConn conn,
        Effect.answerCall call.id "pre_accept" (filter_sdp_for_whatsapp sdp0),
        Effect.answerCall call.id "accept" (filter_sdp_for_whatsapp sdp0),
        Effect.register call.id conn],
       insertReg reg call.id conn, .ok conn) := rfl
  rw [hE]
  refine ⟨rfl, insertReg_lookup_self reg call.id conn, fun t => by simp,
    insertReg_length_present reg call.id conn old hold, fun hu => ?_⟩
  have hu2 := insertReg_uniq reg call.id conn hu
  exact ⟨hu2, fun k => countKey_le_one_of_uniq _ hu2 k⟩

/-- Witness for `connect_duplicate_overwrite`: id `"a"` bound to session
1 ends up bound to the new session 2. -/
theorem connect_duplicate_overwrite_witness :
    lookupReg (handle_connect_event ⟨true, some "v=0", true, true⟩ 2 [("a", 1)]
        ⟨"a", "+1", "+2", "connect", "0", none, ⟨"v=0", "offer"⟩⟩).2.1 "a" = some 2 :=
  (connect_duplicate_overwrite 2 1 [("a", 1)]
    ⟨"a", "+1", "+2", "connect", "0", none, ⟨"v=0", "offer"⟩⟩ "v=0" rfl).2.1

/-- Claim C3 is false as stated: when `initialize` fails, the freshly
constructed connection (session 5 in the trace) is abandoned — the error
propagates without any `disconnect` being invoked on it. (The no-provider-
calls and no-registry-entry parts do hold on this path.) -/
theorem connect_failure_leak_cex :
    handle_connect_event ⟨false, none, true, true⟩ 5 []
        ⟨"a", "+1", "+2", "connect", "0", none, ⟨"v=0", "offer"⟩⟩ =
      ([Effect.createConn 5], [], .error .mediaInitError) ∧
    Effect.disconnect 5 ∉ [Effect.createConn 5] :=
  ⟨rfl, by decide⟩

/-- Claim C3 (amended): on every failing connect path the registry is
left unchanged; on a `pre_accept`/`accept` rejection the created session
is disconnected exactly once before the error propagates; on a
media-initialization or answer-retrieval failure no provider calls are
made — but no `disconnect` is invoked either: the created session object
is simply abandoned. -/
theorem connect_failure_cleanup (env : ConnectEnv) (conn : Conn) (reg : Registry)
    (call : WhatsAppConnectCall) (e : ConnectError)
    (herr : (handle_connect_event env conn reg call).2.2 = .error e) :
    (handle_connect_event env conn reg call).2.1 = reg ∧
    ((e = ConnectError.preAcceptRejected ∨ e = ConnectError.acceptRejected) →
      (handle_connect_event env conn reg call).1.count (Effect.disconnect conn) = 1) ∧
    ((e = ConnectError.mediaInitError ∨ e = ConnectError.answerRetrievalError) →
      (∀ i a s, Effect.answerCall i a s ∉ (handle_connect_event env conn reg call).1) ∧
      ∀ t, Effect.disconnect t ∉ (handle_connect_event env conn reg call).1) := by
  obtain ⟨i, a, p, q⟩ := env
  cases i with
  | false =>
    have hE : handle_connect_event ⟨false, a, p, q⟩ conn reg call =
        ([Effect.createConn conn], reg, .error .mediaInitError) := rfl
    rw [hE] at herr ⊢
    simp only [Except.error.injEq] at herr
    subst herr
    refine ⟨rfl, ?_, fun _ => ⟨fun i2 a2 s2 => by simp, fun t => by simp⟩⟩
    rintro (h | h) <;> simp at h
  | true =>
    cases a with
    | none =>
      have hE : handle_connect_event ⟨true, none, p, q⟩ conn reg call =
          ([Effect.createConn conn], reg, .error .answerRetrievalError) := rfl
      rw [hE] at herr ⊢
      simp only [Except.error.injEq] at herr
      subst herr
      refine ⟨rfl, ?_, fun _ => ⟨fun i2 a2 s2 => by simp, fun t => by simp⟩⟩
      rintro (h | h) <;> simp at h
    | some sdp0 =>
      cases p with
      | false =>
        have hE : handle_connect_event ⟨true, some sdp0, false, q⟩ conn reg call =
            ([Effect.createConn conn,
              Effect.answerCall call.id "pre_accept" (filter_sdp_for_whatsapp sdp0),
              Effect.disconnect conn], reg, .error .preAcceptRejected) := rfl
        rw [hE] at herr ⊢
        simp only [Except.error.injEq] at herr
        subst herr
        refine ⟨rfl, fun _ => by simp [List.count_cons], ?_⟩
        rintro (h | h) <;> simp at h
      | true =>
        cases q with
        | false =>
          have hE : handle_connect_event ⟨true, some sdp0, true, false⟩ conn reg call =
              ([Effect.createConn conn,
                Effect.answerCall call.id "pre_accept" (filter_sdp_for_whatsapp sdp0),
                Effect.answerCall call.id "accept" (filter_sdp_for_whatsapp sdp0),
                Effect.disconnect conn], reg, .error .acceptRejected) := rfl
          rw [hE] at herr ⊢
          simp only [Except.error.injEq] at herr
          subst herr
          refine ⟨rfl, fun _ => by simp [List.count_cons], ?_⟩
          rintro (h | h) <;> simp at h
        | true =>
          have hE : (handle_connect_event ⟨true, some sdp0, true, true⟩ conn reg call).2.2 =
              .ok conn := rfl
          rw [hE] at herr
          simp at herr

/-- Witness for `connect_failure_cleanup`: a rejected `pre_accept` leaves
the registry empty and the created session 2 disconnected once. -/
theorem connect_failure_cleanup_witness :
    (handle_connect_event ⟨true, some "v=0", false, true⟩ 2 []
        ⟨"a", "+1", "+2", "connect", "0", none, ⟨"v=0", "offer"⟩⟩).2.1 = ([] : Registry) ∧
    (handle_connect_event ⟨true, some "v=0", false, true⟩ 2 []
        ⟨"a", "+1", "+2", "connect", "0", none, ⟨"v=0", "offer"⟩⟩).1.count
      (Effect.disconnect 2) = 1 :=
  ⟨(connect_failure_cleanup ⟨true, some "v=0", false, true⟩ 2 []
      ⟨"a", "+1", "+2", "connect", "0", none, ⟨"v=0", "offer"⟩⟩
      ConnectError.preAcceptRejected rfl).1,
   (connect_failure_cleanup ⟨true, some "v=0", false, true⟩ 2 []
      ⟨"a", "+1", "+2", "connect", "0", none, ⟨"v=0", "offer"⟩⟩
      ConnectError.preAcceptRejected rfl).2.1 (Or.inl rfl)⟩

/-- Claim C4 is false as stated: if the call id was already registered
(here `"a"` bound to session 1) and a second connect for it is rejected
at `pre_accept`, the stale prior entry remains — the registry does
contain an entry for that call id afterwards. (The new session is
disconnected exactly once, and nothing is added.) -/
theorem handshake_rejection_stale_cex :
    (handle_connect_event ⟨true, some "v=0", false, true⟩ 2 [("a", 1)]
        ⟨"a", "+1", "+2", "connect", "0", none, ⟨"v=0", "offer"⟩⟩).2.2 =
      .error .preAcceptRejected ∧
    lookupReg (handle_connect_event ⟨true, some "v=0", false, true⟩ 2 [("a", 1)]
        ⟨"a", "+1", "+2", "connect", "0", none, ⟨"v=0", "offer"⟩⟩).2.1 "a" = some 1 ∧
    (handle_connect_event ⟨true, some "v=0", false, true⟩ 2 [("a", 1)]
        ⟨"a", "+1", "+2", "connect", "0", none, ⟨"v=0", "offer"⟩⟩).1.count
      (Effect.disconnect 2) = 1 :=
  ⟨rfl, rfl, rfl⟩

/-- Claim C4 (amended): when `pre_accept` or `accept` reports failure,
connect handling fails with the corresponding rejection, the registry is
left exactly as it was — so no entry for the call id is added, and the
id is absent afterwards whenever it was absent beforehand — and
`disconnect` is invoked on the created session exactly once. -/
theorem handshake_rejection_cleanup (pre acc : Bool) (conn : Conn) (reg : Registry)
    (call : WhatsAppConnectCall) (sdp0 : String) (hrej : pre = false ∨ acc = false) :
    (∃ e, (handle_connect_event ⟨true, some sdp0, pre, acc⟩ conn reg call).2.2 =
        .error e ∧
      (e = ConnectError.preAcceptRejected ∨ e = ConnectError.acceptRejected)) ∧
    (handle_connect_event ⟨true, some sdp0, pre, acc⟩ conn reg call).2.1 = reg ∧
    (handle_connect_event ⟨true, some sdp0, pre, acc⟩ conn reg call).1.count
      (Effect.disconnect conn) = 1 := by
  cases pre with
  | false =>
    have hE : handle_connect_event ⟨true, some sdp0, false, acc⟩ conn reg call =
        ([Effect.createConn conn,
          Effect.answerCall call.id "pre_accept" (filter_sdp_for_whatsapp sdp0),
          Effect.disconnect conn], reg, .error .preAcceptRejected) := rfl
    rw [hE]
    exact ⟨⟨.preAcceptRejected, rfl, Or.inl rfl⟩, rfl, by simp [List.count_cons]⟩
  | true =>
    rcases hrej with h | h
    · simp at h
    · subst h
      have hE : handle_connect_event ⟨true, some sdp0, true, false⟩ conn reg call =
          ([Effect.createConn conn,
            Effect.answerCall call.id "pre_accept" (filter_sdp_for_whatsapp sdp0),
            Effect.answerCall call.id "accept" (filter_sdp_for_whatsapp sdp0),
            Effect.disconnect conn], reg, .error .acceptRejected) := rfl
      rw [hE]
      exact ⟨⟨.acceptRejected, rfl, Or.inr rfl⟩, rfl, by simp [List.count_cons]⟩

/-- Witness for `handshake_rejection_cleanup`: a rejected `accept` for a
fresh call leaves the one-entry registry unchanged and disconnects the
new session 9 once. -/
theorem handshake_rejection_cleanup_witness :
    (handle_connect_event ⟨true, some "v=0", true, false⟩ 9 [("b", 7)]
        ⟨"a", "+1", "+2", "connect", "0", none, ⟨"v=0", "offer"⟩⟩).2.1 = [("b", 7)] ∧
    (handle_connect_event ⟨true, some "v=0", true, false⟩ 9 [("b", 7)]
        ⟨"a", "+1", "+2", "connect", "0", none, ⟨"v=0", "offer"⟩⟩).1.count
      (Effect.disconnect 9) = 1 :=
  ⟨(handshake_rejection_cleanup true false 9 [("b", 7)]
      ⟨"a", "+1", "+2", "connect", "0", none, ⟨"v=0", "offer"⟩⟩ "v=0" (Or.inr rfl)).2.1,
   (handshake_rejection_cleanup true false 9 [("b", 7)]
      ⟨"a", "+1", "+2", "connect", "0", none, ⟨"v=0", "offer"⟩⟩ "v=0" (Or.inr rfl)).2.2⟩

/-- Claim C5: for a connect event whose call id is absent, when both
gateway calls succeed the handler's full effect trace is: create the
connection, `pre_accept`, `accept`, and only then — strictly after both
gateway calls — the registry assignment; exactly one entry for the call
id exists afterwards (and none existed beforehand). -/
theorem connect_success_registration (conn : Conn) (reg : Registry)
    (call : WhatsAppConnectCall) (sdp0 : String)
    (habs : lookupReg reg call.id = none) :
    handle_connect_event ⟨true, some sdp0, true, true⟩ conn reg call =
      ([Effect.createConn conn,
        Effect.answerCall call.id "pre_accept" (filter_sdp_for_whatsapp sdp0),
        Effect.answerCall call.id "accept" (filter_sdp_for_whatsapp sdp0),
        Effect.register call.id conn],
       reg ++ [(call.id, conn)], .ok conn) ∧
    countKey (reg ++ [(call.id, conn)]) call.id = 1 ∧
    countKey reg call.id = 0 := by
  have h0 : countKey reg call.id = 0 := (lookupReg_eq_none_iff reg call.id).mp habs
  refine ⟨?_, ?_, h0⟩
  · have hE : handle_connect_event ⟨true, some sdp0, true, true⟩ conn reg call =
        ([Effect.createConn conn,
          Effect.answerCall call.id "pre_accept" (filter_sdp_for_whatsapp sdp0),
          Effect.answerCall call.id "accept" (filter_sdp_for_whatsapp sdp0),
          Effect.register call.id conn],
         insertReg reg call.id conn, .ok conn) := rfl
    rw [hE, insertReg_absent reg call.id conn habs]
  · rw [countKey_append, h0]
    simp [countKey, List.filter_cons]

/-- Witness for `connect_success_registration`: a successful connect for
fresh id `"abc"` registers session 3 after the two gateway calls. -/
theorem connect_success_registration_witness :
    handle_connect_event ⟨true, some "v=0", true, true⟩ 3 []
        ⟨"abc", "+1", "+2", "connect", "0", none, ⟨"o", "offer"⟩⟩ =
      ([Effect.createConn 3,
        Effect.answerCall "abc" "pre_accept" (filter_sdp_for_whatsapp "v=0"),
        Effect.answerCall "abc" "accept" (filter_sdp_for_whatsapp "v=0"),
        Effect.register "abc" 3],
       [("abc", 3)], .ok 3) :=
  (connect_success_registration 3 []
    ⟨"abc", "+1", "+2", "connect", "0", none, ⟨"o", "offer"⟩⟩ "v=0" rfl).1

/-- Claim C9: webhook dispatch equals the spec-side in-order scan — if no
call in the whole request matches its change's expected event tag, it
fails with the unsupported-event error and touches nothing; the first
matching call is dispatched to connect or terminate handling and that
result is returned immediately; entries after a match are never
processed (appending arbitrary extra entries cannot change the result). -/
theorem webhook_dispatch_spec (env : ConnectEnv) (conn : Conn) (reg : Registry)
    (req : WhatsAppWebhookRequest) :
    (specFirstEvent req = none →
      handle_webhook_request env conn reg req = ([], reg, .error .unsupportedEvent)) ∧
    (∀ c, specFirstEvent req = some (.inl c) →
      handle_webhook_request env conn reg req =
        ((handle_connect_event env conn reg c).1,
         (handle_connect_event env conn reg c).2.1,
         match (handle_connect_event env conn reg c).2.2 with
         | .ok co => .ok (.connection co)
         | .error e => .error (.connectFailed e))) ∧
    (∀ t, specFirstEvent req = some (.inr t) →
      handle_webhook_request env conn reg req =
        ((handle_terminate_event reg t).1, (handle_terminate_event reg t).2.1,
         .ok (.ack (handle_terminate_event reg t).2.2))) ∧
    (∀ extra, specFirstEvent req ≠ none →
      handle_webhook_request env conn reg ⟨req.object, req.entry ++ extra⟩ =
        handle_webhook_request env conn reg req) := by
  refine ⟨?_, ?_, ?_, ?_⟩
  · intro h
    unfold handle_webhook_request
    rw [scanEntries_eq_spec, h]
  · intro c h
    unfold handle_webhook_request
    rw [scanEntries_eq_spec, h]
  · intro t h
    unfold handle_webhook_request
    rw [scanEntries_eq_spec, h]
  · intro extra h
    cases hr : specFirstEvent req with
    | none => exact absurd hr h
    | some r =>
      have h1 : scanEntries req.entry = some r := by rw [scanEntries_eq_spec, hr]
      have h2 : scanEntries (req.entry ++ extra) = some r :=
        scanEntries_append_of_some req.entry extra r h1
      unfold handle_webhook_request
      rw [show (⟨req.object, req.entry ++ extra⟩ : WhatsAppWebhookRequest).entry =
        req.entry ++ extra from rfl, h1, h2]

/-- Witness for `webhook_dispatch_spec`: a request whose only matching
call is a terminate for registered id `"a"` dispatches to terminate
handling (disconnecting session 1), and appending an extra entry does
not change the outcome. -/
theorem webhook_dispatch_spec_witness :
    handle_webhook_request ⟨true, some "v=0", true, true⟩ 7 [("a", 1)]
        ⟨"whatsapp_business_account",
         [⟨"e1", [⟨.terminateValue ⟨"whatsapp", ⟨"p", "pid"⟩,
            [⟨"a", "+1", "+2", "terminate", "0", none, none, some "COMPLETED", none, none,
              some 42⟩], none⟩, "calls"⟩]⟩]⟩ =
      ([Effect.disconnect 1], [],
       .ok (.ack ⟨"success", "Call termination handled"⟩)) :=
  (webhook_dispatch_spec ⟨true, some "v=0", true, true⟩ 7 [("a", 1)]
      ⟨"whatsapp_business_account",
       [⟨"e1", [⟨.terminateValue ⟨"whatsapp", ⟨"p", "pid"⟩,
          [⟨"a", "+1", "+2", "terminate", "0", none, none, some "COMPLETED", none, none,
            some 42⟩], none⟩, "calls"⟩]⟩]⟩).2.2.1
    ⟨"a", "+1", "+2", "terminate", "0", none, none, some "COMPLETED", none, none, some 42⟩
    rfl

end Whatsapp
